import Mathlib

/-!
Verification of the backpack repository core: the branching/merging graph
primitives (`src/backpack/custom_module/branching.py`), the module-extension
protocol (`src/backpack/extensions/module_extension.py`) and the quantity
store contract they rely on.

Tensors are shallowly embedded as a shape together with a flat list of
integer entries; the storage address used as a cache key is carried as an
explicit `data_ptr` field, and participation in differentiation as a
`requires_grad` flag.  Python errors are modelled with `Except`, Python
`None` with `Option.none`.
-/

namespace Backpack

/-- Shallow embedding of a tensor: a shape, flat data, the autograd
participation flag and the storage address used as identity key.
The address of a freshly allocated result tensor is not modelled and is
set to 0. -/
structure Tensor where
  shape : List Nat
  data : List Int
  requires_grad : Bool
  data_ptr : Nat
deriving DecidableEq, Repr

/-- Element-wise addition of two tensors of identical shape, as performed
by the plus operator on same-shape tensors inside `sum`. -/
def tensorAdd (a b : Tensor) : Tensor :=
  { shape := a.shape
    data := List.zipWith (fun x y => x + y) a.data b.data
    requires_grad := a.requires_grad || b.requires_grad
    data_ptr := 0 }

/-- A Python value reachable from the merge primitives: the int 0 produced
by `sum` on an empty tuple, or a tensor. -/
inductive PyValue where
  | int (n : Int)
  | tensor (t : Tensor)
deriving DecidableEq, Repr

/-- Errors raised by the embedded code. -/
inductive PyError where
  | valueError (msg : String)
  | assertionError (msg : String)
  | notImplementedError (msg : String)
  | attributeError (msg : String)
deriving DecidableEq, Repr

/-- Python builtin `sum` applied to a tuple of tensors: starts from the
int 0, so an empty tuple yields the int 0 and a nonempty tuple folds
element-wise tensor addition over the entries from the left. -/
def pySum (ts : List Tensor) : PyValue :=
  match ts with
  | [] => PyValue.int 0
  | t :: rest => PyValue.tensor (rest.foldl tensorAdd t)

/-- Argument bound to the star-parameter of `SumModule.forward`: either a
tuple of tensors or some non-tuple value. -/
inductive SumInput where
  | tuple (ts : List Tensor)
  | nonTuple (v : PyValue)
deriving DecidableEq, Repr

/-- Embedding of `SumModule.forward` (src/backpack/custom_module/branching.py,
lines 61-75): raise `ValueError` unless the argument is a tuple, otherwise
return the sum of all inputs. -/
def SumModule.forward (input : SumInput) : Except PyError PyValue :=
  match input with
  | SumInput.nonTuple _ =>
      Except.error (PyError.valueError ("Expecting tuple as input"))
  | SumInput.tuple ts => Except.ok (pySum ts)

/-- A sub-module of a branch, embedded as its forward function. -/
def SubModule : Type := Tensor → Tensor

/-- Constructor argument of `Branch` (and `Parallel`): a single ordered
dictionary of named modules, or a positional tuple of modules. -/
inductive BranchArgs where
  | odict (entries : List (String × SubModule))
  | positional (mods : List SubModule)

/-- Embedding of `Branch`: the children registered by `add_module`, in
registration order. -/
structure Branch where
  children : List (String × SubModule)

/-- Embedding of `Branch.__init__` (branching.py lines 26-39): an ordered
dictionary registers each entry under its key; a positional tuple registers
each module under its stringified index. -/
def Branch.init (args : BranchArgs) : Branch :=
  match args with
  | BranchArgs.odict entries => ⟨entries⟩
  | BranchArgs.positional mods =>
      ⟨mods.enum.map (fun p => (toString p.1, p.2))⟩

/-- Embedding of `Branch.forward` (branching.py lines 41-50): feed the input
through each child module, returning the tuple of outputs in registration
order. -/
def Branch.forward (b : Branch) (input : Tensor) : List Tensor :=
  b.children.map (fun c => c.2 input)

/-- A merge module as used by `Parallel`: receives the unpacked branch
outputs (re-packed into a tuple by its own star-parameter) and produces one
value. -/
def MergeModule : Type := List Tensor → PyValue

/-- The default merge of `Parallel`: a `SumModule`, whose forward on the
re-packed tuple of branch outputs is `pySum`. -/
def sumMergeModule : MergeModule := fun ts => pySum ts

/-- Embedding of `Parallel`: a branch followed by a merge module. -/
structure Parallel where
  branch : Branch
  merge : MergeModule

/-- Embedding of `Parallel.__init__` (branching.py lines 88-105): build the
branch from the arguments and use a fresh `SumModule` when no merge module
is given. -/
def Parallel.init (args : BranchArgs) (merge_module : Option MergeModule) :
    Parallel :=
  ⟨Branch.init args, merge_module.getD sumMergeModule⟩

/-- Embedding of `Parallel.forward` (branching.py lines 107-116): apply the
merge module to the unpacked outputs of the branch. -/
def Parallel.forward (p : Parallel) (input : Tensor) : PyValue :=
  p.merge (p.branch.forward input)

/-! ## Quantity store

The class `SavedQuantities` used through `extension.saved_quantities` is not
part of the sources; it is modelled from the spec below.  The payload type is
generic; the protocol stores payloads of type `Option Q` because a Python
payload may itself be `None`. -/

/-- Modelled from the spec: the Quantity Store (the `SavedQuantities` class
behind `extension.saved_quantities` is missing from src).  A process-scoped
cache mapping an identity key (a storage address) to a payload, holding at
most one live entry per key. -/
structure SavedQuantities (Q : Type) where
  saved : List (Nat × Q)
deriving DecidableEq, Repr

/-- Lookup of the payload stored for a key, absent modelled as `none`. -/
def SavedQuantities.lookup {Q : Type} (st : SavedQuantities Q) (key : Nat) :
    Option Q :=
  (st.saved.find? (fun e => decide (e.1 = key))).map (fun e => e.2)

/-- Modelled from the spec: `save_quantity(key, payload)` inserts or
overwrites the entry for the key. -/
def save_quantity {Q : Type} (st : SavedQuantities Q) (key : Nat)
    (payload : Q) : SavedQuantities Q :=
  ⟨(key, payload) :: st.saved.filter (fun e => !decide (e.1 = key))⟩

/-- Modelled from the spec: `retrieve_quantity(key, delete_old)` returns the
payload for the key, or the sentinel absent value (`none`) if no entry
exists; when `delete_old` is true the entry is removed after being read. -/
def retrieve_quantity {Q : Type} (st : SavedQuantities Q) (key : Nat)
    (delete_old : Bool) : Option Q × SavedQuantities Q :=
  (st.lookup key,
    if delete_old then ⟨st.saved.filter (fun e => !decide (e.1 = key))⟩
    else st)

/-! ## Module extension protocol -/

/-- A module parameter as seen by the protocol: only its participation in
differentiation matters; the values stored on it live in a `ParamStore`. -/
structure PyParam where
  requires_grad : Bool
deriving DecidableEq, Repr

/-- A module as seen by the protocol: its class tests, the input and output
tensors retained for the backward pass, and its named parameter attributes
(`none` models an attribute set to Python `None`).  The tests `is_loss`
(from backpack.utils.module_classification, missing from src) and
`isinstance(module, Flatten)` are carried as fields. -/
structure PyModule where
  is_flatten : Bool
  is_loss : Bool
  input0 : Tensor
  output : Tensor
  getParam : String → Option PyParam

/-- The backpropagation driver (`BackpropExtension`) boundary: whether it
expects backpropagation quantities, and the savefield name. -/
structure BackpropExtension where
  expects_backpropagation_quantities : Bool
  savefield : String

/-- Signature of a per-parameter computation function
`f(extension, module, g_inp, g_out, bpQuantities) -> Any`. -/
def ParamFunc (Q V : Type) : Type :=
  BackpropExtension → PyModule → List Tensor → List Tensor → Option Q → V

/-- Signature of the `backpropagate` rule; the second component of the
result collects warnings emitted during the call. -/
def BackpropFunc (Q : Type) : Type :=
  BackpropExtension → PyModule → List Tensor → List Tensor → Option Q →
    Option Q × List String

/-- Embedding of the base `ModuleExtension.backpropagate`
(module_extension.py lines 52-72): warn and return `None`. -/
def baseBackpropagate (Q : Type) : BackpropFunc Q :=
  fun _ _ _ _ _ => (none, ["Backpropagate has not been overwritten"])

/-- Embedding of a `ModuleExtension` instance: the declared parameter names,
the attribute lookup for per-parameter computation functions (`none` models
a missing attribute) and the `backpropagate` method in effect (the base one
or an override). -/
structure ModuleExtensionImpl (Q V : Type) where
  params : List String
  funcs : String → Option (ParamFunc Q V)
  backpropagate : BackpropFunc Q

/-- Embedding of `ModuleExtension.__init__` (module_extension.py lines
27-50): default the parameter list to empty, then raise
`NotImplementedError` at the first declared parameter whose computation
function is missing. -/
def ModuleExtensionImpl.init (Q V : Type) (params : Option (List String))
    (funcs : String → Option (ParamFunc Q V)) (backprop : BackpropFunc Q) :
    Except PyError (ModuleExtensionImpl Q V) :=
  let ps := params.getD []
  match ps.find? (fun p => (funcs p).isNone) with
  | some p =>
      Except.error (PyError.notImplementedError
        ("The module extension is missing an implementation " ++ p))
  | none => Except.ok ⟨ps, funcs, backprop⟩

/-- Embedding of `ModuleExtension.__get_backproped_quantity`
(module_extension.py lines 147-167): retrieve from the store under the
reference tensor storage address.  The stored payload may itself be `None`,
and absence is returned as `None` as well, hence the flattening. -/
def get_backproped_quantity {Q : Type} (st : SavedQuantities (Option Q))
    (reference_tensor : Tensor) (delete_old : Bool) :
    Option Q × SavedQuantities (Option Q) :=
  let r := retrieve_quantity st reference_tensor.data_ptr delete_old
  (r.1.join, r.2)

/-- Embedding of `ModuleExtension.__save_backproped_quantity`
(module_extension.py lines 169-183). -/
def save_backproped_quantity {Q : Type} (st : SavedQuantities (Option Q))
    (reference_tensor : Tensor) (bpQuantities : Option Q) :
    SavedQuantities (Option Q) :=
  save_quantity st reference_tensor.data_ptr bpQuantities

/-- Embedding of `ModuleExtension.__param_exists_and_requires_grad`
(module_extension.py lines 185-197): the attribute is not `None` and the
parameter requires gradient. -/
def param_exists_and_requires_grad (module : PyModule) (param_str : String) :
    Bool :=
  match module.getParam param_str with
  | none => false
  | some p => p.requires_grad

/-- Embedding of `ModuleExtension.__should_backpropagate`
(module_extension.py lines 133-145). -/
def should_backpropagate (extension : BackpropExtension)
    (module : PyModule) : Bool :=
  module.input0.requires_grad &&
    extension.expects_backpropagation_quantities

/-- The attribute slots of parameter objects touched by
`ModuleExtension.__save_value_on_parameter`: an assignment of values to
(parameter name, savefield name) pairs, `setattr` overwriting. -/
structure ParamStore (V : Type) where
  entries : List ((String × String) × V)
deriving DecidableEq, Repr

/-- Read the attribute slot for a (parameter, savefield) pair. -/
def ParamStore.get {V : Type} (ps : ParamStore V) (key : String × String) :
    Option V :=
  (ps.entries.find? (fun e => decide (e.1 = key))).map (fun e => e.2)

/-- Embedding of `ModuleExtension.__save_value_on_parameter`
(module_extension.py lines 199-211): `setattr` on the parameter object,
overwriting any previous value under the savefield. -/
def ParamStore.set {V : Type} (ps : ParamStore V) (key : String × String)
    (v : V) : ParamStore V :=
  ⟨(key, v) :: ps.entries.filter (fun e => !decide (e.1 = key))⟩

/-- Embedding of the per-parameter loop of `ModuleExtension.__call__`
(module_extension.py lines 121-125): for each declared parameter in order,
if it exists and requires gradient, look up the computation function
(`getattr`, raising `AttributeError` if absent), apply it and save the
result on the parameter under the savefield. -/
def run_params {Q V : Type} (me : ModuleExtensionImpl Q V)
    (extension : BackpropExtension) (module : PyModule)
    (g_inp g_out : List Tensor) (bp_quantity : Option Q) :
    List String → ParamStore V → Except PyError (ParamStore V)
  | [], pstore => Except.ok pstore
  | p :: rest, pstore =>
      if param_exists_and_requires_grad module p then
        match me.funcs p with
        | none => Except.error (PyError.attributeError p)
        | some f =>
            run_params me extension module g_inp g_out bp_quantity rest
              (pstore.set (p, extension.savefield)
                (f extension module g_inp g_out bp_quantity))
      else
        run_params me extension module g_inp g_out bp_quantity rest pstore

/-- Result of one successful protocol invocation: the quantity store, the
parameter attribute slots and the warnings emitted. -/
structure CallOut (Q V : Type) where
  store : SavedQuantities (Option Q)
  pstore : ParamStore V
  warnings : List String
deriving DecidableEq

/-- Embedding of `ModuleExtension.__call__` (module_extension.py lines
74-131): fetch the backpropagated quantity for the module output with
consumption; if the extension expects one, none was found and the module is
not a loss, either handle the legacy no-op Flatten exemption (return early
when shapes agree, raise otherwise) or raise; otherwise run the
per-parameter loop and, when the input requires gradient and the extension
expects backpropagation quantities, apply the backpropagate rule and store
its result under the module input identity.  `full_backward_hook` carries
the global `FULL_BACKWARD_HOOK` flag (backpack.utils, missing from src). -/
def ModuleExtensionImpl.call {Q V : Type}
    (me : ModuleExtensionImpl Q V) (extension : BackpropExtension)
    (module : PyModule) (g_inp g_out : List Tensor)
    (full_backward_hook : Bool) (store : SavedQuantities (Option Q))
    (pstore : ParamStore V) : Except PyError (CallOut Q V) :=
  let fetched := get_backproped_quantity store module.output true
  let bp_quantity := fetched.1
  let store1 := fetched.2
  if extension.expects_backpropagation_quantities && bp_quantity.isNone &&
      !module.is_loss then
    if !full_backward_hook && module.is_flatten then
      if module.input0.shape == module.output.shape then
        Except.ok ⟨store1, pstore, []⟩
      else
        Except.error (PyError.assertionError
          ("Expected no op Flatten module"))
    else
      Except.error (PyError.assertionError
        ("BackPACK extension expects a backpropagation quantity but it is None"))
  else
    match run_params me extension module g_inp g_out bp_quantity me.params
        pstore with
    | Except.error e => Except.error e
    | Except.ok pstore1 =>
        if should_backpropagate extension module then
          let r := me.backpropagate extension module g_inp g_out bp_quantity
          Except.ok
            ⟨save_backproped_quantity store1 module.input0 r.1, pstore1, r.2⟩
        else
          Except.ok ⟨store1, pstore1, []⟩

/-! ## Helper lemmas -/

theorem getD_zipWith_add :
    ∀ (a b : List Int) (i : Nat), i < a.length → i < b.length →
      (List.zipWith (fun x y => x + y) a b).getD i 0 =
        a.getD i 0 + b.getD i 0
  | [], _, _, ha, _ => absurd ha (Nat.not_lt_zero _)
  | _ :: _, [], _, _, hb => absurd hb (Nat.not_lt_zero _)
  | _ :: _, _ :: _, 0, _, _ => rfl
  | _ :: a, _ :: b, i + 1, ha, hb =>
      getD_zipWith_add a b i (Nat.lt_of_succ_lt_succ ha)
        (Nat.lt_of_succ_lt_succ hb)

theorem foldl_tensorAdd_spec (rest : List Tensor) :
    ∀ (t : Tensor), (∀ u ∈ rest, u.data.length = t.data.length) →
      (rest.foldl tensorAdd t).shape = t.shape ∧
      (rest.foldl tensorAdd t).data.length = t.data.length ∧
      ∀ i, i < t.data.length →
        (rest.foldl tensorAdd t).data.getD i 0 =
          t.data.getD i 0 + (rest.map (fun u => u.data.getD i 0)).sum := by
  induction rest with
  | nil =>
    intro t _
    exact ⟨rfl, rfl, fun i _ => by simp⟩
  | cons u rest ih =>
    intro t h
    have hu : u.data.length = t.data.length := h u (by simp)
    have hlen : (tensorAdd t u).data.length = t.data.length := by
      simp [tensorAdd, hu]
    have h' : ∀ v ∈ rest, v.data.length = (tensorAdd t u).data.length := by
      intro v hv
      rw [hlen]
      exact h v (by simp [hv])
    obtain ⟨s1, s2, s3⟩ := ih (tensorAdd t u) h'
    refine ⟨?_, ?_, ?_⟩
    · rw [List.foldl_cons, s1]
      rfl
    · rw [List.foldl_cons, s2, hlen]
    · intro i hi
      have hit : i < (tensorAdd t u).data.length := by rw [hlen]; exact hi
      have hadd : (tensorAdd t u).data.getD i 0 = t.data.getD i 0 + u.data.getD i 0 := by
        simpa [tensorAdd] using getD_zipWith_add t.data u.data i hi (hu ▸ hi)
      rw [List.foldl_cons, s3 i hit, hadd, List.map_cons, List.sum_cons,
        add_assoc]

theorem find?_filter_of_imp {α : Type} (l : List α) (p q : α → Bool)
    (h : ∀ e, p e = true → q e = true) :
    (l.filter q).find? p = l.find? p := by
  induction l with
  | nil => rfl
  | cons a l ih =>
    by_cases hq : q a = true
    · rw [List.filter_cons_of_pos hq]
      by_cases hp : p a = true
      · rw [List.find?_cons_of_pos _ hp, List.find?_cons_of_pos _ hp]
      · rw [List.find?_cons_of_neg _ hp, List.find?_cons_of_neg _ hp, ih]
    · have hp : ¬p a = true := fun hpa => hq (h a hpa)
      rw [List.filter_cons_of_neg hq, List.find?_cons_of_neg _ hp, ih]

theorem lookup_erased {Q : Type} (l : List (Nat × Q)) (k : Nat) :
    SavedQuantities.lookup ⟨l.filter (fun e => !decide (e.1 = k))⟩ k =
      none := by
  have hf : (l.filter (fun e => !decide (e.1 = k))).find?
      (fun e => decide (e.1 = k)) = none := by
    rw [List.find?_eq_none]
    intro e he
    have := (List.mem_filter.mp he).2
    simp only [Bool.not_eq_true', decide_eq_false_iff_not] at this
    simp [this]
  simp [SavedQuantities.lookup, hf]

theorem lookup_save_self {Q : Type} (st : SavedQuantities Q) (k : Nat)
    (v : Q) : (save_quantity st k v).lookup k = some v := by
  simp [save_quantity, SavedQuantities.lookup]

theorem lookup_save_ne {Q : Type} (st : SavedQuantities Q) (k k' : Nat)
    (v : Q) (h : k' ≠ k) :
    (save_quantity st k' v).lookup k = st.lookup k := by
  unfold save_quantity SavedQuantities.lookup
  dsimp only
  rw [List.find?_cons_of_neg _ (by simp [h]),
    find?_filter_of_imp _ _ _ (fun e he => ?_)]
  have he' : e.1 = k := by simpa using he
  simp [he', Ne.symm h]

theorem get_backproped_consumed {Q : Type} (st : SavedQuantities (Option Q))
    (ref : Tensor) :
    ((get_backproped_quantity st ref true).2).lookup ref.data_ptr = none := by
  simpa [get_backproped_quantity, retrieve_quantity] using
    lookup_erased st.saved ref.data_ptr

theorem pget_set_self {V : Type} (ps : ParamStore V) (k : String × String)
    (v : V) : (ps.set k v).get k = some v := by
  simp [ParamStore.set, ParamStore.get]

theorem pget_set_ne {V : Type} (ps : ParamStore V) (k k' : String × String)
    (v : V) (h : k' ≠ k) : (ps.set k' v).get k = ps.get k := by
  unfold ParamStore.set ParamStore.get
  dsimp only
  rw [List.find?_cons_of_neg _ (by simp [h]),
    find?_filter_of_imp _ _ _ (fun e he => ?_)]
  have he' : e.1 = k := by simpa using he
  simp [he', Ne.symm h]

theorem run_params_ok {Q V : Type} (me : ModuleExtensionImpl Q V)
    (extension : BackpropExtension) (module : PyModule)
    (g_inp g_out : List Tensor) (bpq : Option Q) :
    ∀ (ps : List String), (∀ p ∈ ps, (me.funcs p).isSome) →
      ∀ (pstore : ParamStore V), ∃ pstore1,
        run_params me extension module g_inp g_out bpq ps pstore =
          Except.ok pstore1 := by
  intro ps
  induction ps with
  | nil => exact fun _ pstore => ⟨pstore, rfl⟩
  | cons p rest ih =>
    intro h pstore
    by_cases hp : param_exists_and_requires_grad module p = true
    · obtain ⟨f, hf⟩ := Option.isSome_iff_exists.mp (h p (by simp))
      have hrec := ih (fun q hq => h q (by simp [hq]))
        (pstore.set (p, extension.savefield)
          (f extension module g_inp g_out bpq))
      simpa [run_params, hp, hf] using hrec
    · have hrec := ih (fun q hq => h q (by simp [hq])) pstore
      simpa [run_params, hp] using hrec

theorem run_params_get_not_mem {Q V : Type} (me : ModuleExtensionImpl Q V)
    (extension : BackpropExtension) (module : PyModule)
    (g_inp g_out : List Tensor) (bpq : Option Q) :
    ∀ (ps : List String) (pstore pstore1 : ParamStore V) (p sf : String),
      p ∉ ps →
      run_params me extension module g_inp g_out bpq ps pstore =
        Except.ok pstore1 →
      pstore1.get (p, sf) = pstore.get (p, sf) := by
  intro ps
  induction ps with
  | nil =>
    intro pstore pstore1 p sf _ h
    cases h
    rfl
  | cons q rest ih =>
    intro pstore pstore1 p sf hmem h
    have hq : q ≠ p := fun e => hmem (by simp [e])
    have hrest : p ∉ rest := fun e => hmem (by simp [e])
    by_cases hqe : param_exists_and_requires_grad module q = true
    · rcases hfq : me.funcs q with _ | f
      · simp [run_params, hqe, hfq] at h
      · simp only [run_params, hqe, hfq, if_true] at h
        rw [ih _ _ _ _ hrest h, pget_set_ne]
        simp [hq]
    · simp [run_params, hqe] at h
      exact ih _ _ _ _ hrest h

theorem run_params_get_not_trainable {Q V : Type}
    (me : ModuleExtensionImpl Q V) (extension : BackpropExtension)
    (module : PyModule) (g_inp g_out : List Tensor) (bpq : Option Q) :
    ∀ (ps : List String) (pstore pstore1 : ParamStore V) (p : String),
      param_exists_and_requires_grad module p = false →
      run_params me extension module g_inp g_out bpq ps pstore =
        Except.ok pstore1 →
      pstore1.get (p, extension.savefield) =
        pstore.get (p, extension.savefield) := by
  intro ps
  induction ps with
  | nil =>
    intro pstore pstore1 p _ h
    cases h
    rfl
  | cons q rest ih =>
    intro pstore pstore1 p htr h
    by_cases hqe : param_exists_and_requires_grad module q = true
    · have hq : q ≠ p := fun e => by rw [e] at hqe; rw [hqe] at htr; cases htr
      rcases hfq : me.funcs q with _ | f
      · simp [run_params, hqe, hfq] at h
      · simp only [run_params, hqe, hfq, if_true] at h
        rw [ih _ _ _ htr h, pget_set_ne]
        simp [hq]
    · simp [run_params, hqe] at h
      exact ih _ _ _ htr h

theorem run_params_get_trainable {Q V : Type} (me : ModuleExtensionImpl Q V)
    (extension : BackpropExtension) (module : PyModule)
    (g_inp g_out : List Tensor) (bpq : Option Q) :
    ∀ (ps : List String) (pstore pstore1 : ParamStore V) (p : String)
      (f : ParamFunc Q V),
      p ∈ ps → me.funcs p = some f →
      param_exists_and_requires_grad module p = true →
      run_params me extension module g_inp g_out bpq ps pstore =
        Except.ok pstore1 →
      pstore1.get (p, extension.savefield) =
        some (f extension module g_inp g_out bpq) := by
  intro ps
  induction ps with
  | nil =>
    intro _ _ p _ hmem
    cases hmem
  | cons q rest ih =>
    intro pstore pstore1 p f hmem hf htr h
    by_cases hqr : p ∈ rest
    · by_cases hqe : param_exists_and_requires_grad module q = true
      · rcases hfq : me.funcs q with _ | g
        · simp [run_params, hqe, hfq] at h
        · simp only [run_params, hqe, hfq, if_true] at h
          exact ih _ _ _ _ hqr hf htr h
      · simp [run_params, hqe] at h
        exact ih _ _ _ _ hqr hf htr h
    · have hpq : q = p := by
        rcases List.mem_cons.mp hmem with h' | h'
        · exact h'.symm
        · exact absurd h' hqr
      subst hpq
      simp only [run_params, htr, hf, if_true] at h
      rw [run_params_get_not_mem me extension module g_inp g_out bpq rest
        _ _ q extension.savefield hqr h, pget_set_self]

/-! ## Claims about the branching primitives -/

/-- C4: for every Merge/Sum node, calling forward with a non-tuple argument
raises a ValueError via a defensive check rather than proceeding to compute
a sum. -/
theorem C4_merge_non_tuple_raises (v : PyValue) :
    SumModule.forward (SumInput.nonTuple v) =
      Except.error (PyError.valueError ("Expecting tuple as input")) := rfl

/-- C5: for every Merge/Sum node and every tuple of k ≥ 1 tensors of
identical shape, forward returns exactly their element-wise sum. -/
theorem C5_merge_elementwise_sum (ts : List Tensor) (s : List Nat)
    (hne : ts ≠ []) (hsh : ∀ t ∈ ts, t.shape = s)
    (hwf : ∀ t ∈ ts, t.data.length = s.prod) :
    ∃ T : Tensor,
      SumModule.forward (SumInput.tuple ts) = Except.ok (PyValue.tensor T) ∧
      T.shape = s ∧ T.data.length = s.prod ∧
      ∀ i, i < s.prod →
        T.data.getD i 0 = (ts.map (fun t => t.data.getD i 0)).sum := by
  match ts, hne with
  | t :: rest, _ =>
    have hts : t.data.length = s.prod := hwf t (by simp)
    have hlen : ∀ u ∈ rest, u.data.length = t.data.length := by
      intro u hu
      rw [hwf u (by simp [hu]), hts]
    obtain ⟨s1, s2, s3⟩ := foldl_tensorAdd_spec rest t hlen
    refine ⟨rest.foldl tensorAdd t, rfl, ?_, ?_, ?_⟩
    · rw [s1]
      exact hsh t (by simp)
    · rw [s2, hts]
    · intro i hi
      have hit : i < t.data.length := by rw [hts]; exact hi
      rw [s3 i hit, List.map_cons, List.sum_cons]

/-- Witness for C5 at a concrete pair of shape-[2] tensors. -/
theorem C5_merge_elementwise_sum_witness :
    ([Tensor.mk [2] [1, 2] false 0, Tensor.mk [2] [3, 4] false 1] ≠ [] ∧
      (∀ t ∈ [Tensor.mk [2] [1, 2] false 0, Tensor.mk [2] [3, 4] false 1],
        t.shape = [2]) ∧
      (∀ t ∈ [Tensor.mk [2] [1, 2] false 0, Tensor.mk [2] [3, 4] false 1],
        t.data.length = List.prod [2])) ∧
    (∃ T : Tensor,
      SumModule.forward (SumInput.tuple
        [Tensor.mk [2] [1, 2] false 0, Tensor.mk [2] [3, 4] false 1]) =
          Except.ok (PyValue.tensor T) ∧
      T.shape = [2] ∧ T.data.length = List.prod [2] ∧
      ∀ i, i < List.prod [2] →
        T.data.getD i 0 =
          (([Tensor.mk [2] [1, 2] false 0, Tensor.mk [2] [3, 4] false 1]).map
            (fun t => t.data.getD i 0)).sum) :=
  ⟨⟨by decide, by decide, by decide⟩,
    C5_merge_elementwise_sum _ [2] (by decide) (by decide) (by decide)⟩

/-- C6: for every Branch node with sub-modules registered positionally or
via an ordered dictionary, forward feeds the same input to each sub-module
and returns the tuple of their outputs in registration order. -/
theorem C6_branch_forward_order (entries : List (String × SubModule))
    (mods : List SubModule) (x : Tensor) :
    (Branch.init (BranchArgs.odict entries)).forward x =
      entries.map (fun e => e.2 x) ∧
    (Branch.init (BranchArgs.positional mods)).forward x =
      mods.map (fun m => m x) ∧
    ((Branch.init (BranchArgs.odict entries)).forward x).length =
      entries.length ∧
    ((Branch.init (BranchArgs.positional mods)).forward x).length =
      mods.length := by
  have hpos : (Branch.init (BranchArgs.positional mods)).forward x =
      mods.map (fun m => m x) := by
    simp only [Branch.init, Branch.forward, List.map_map]
    have hcomp : ((fun c : String × SubModule => c.2 x) ∘
        fun p : Nat × SubModule => (toString p.1, p.2)) =
        ((fun m : SubModule => m x) ∘ Prod.snd) := rfl
    rw [hcomp, ← List.map_map, List.enum_map_snd]
  refine ⟨rfl, hpos, by simp [Branch.init, Branch.forward], ?_⟩
  rw [hpos]
  simp

/-- C7: Parallel with the default merge satisfies
`Parallel(f, g)(x) = f(x) + g(x)`; in general Parallel.forward applies the
merge module to the tuple produced by Branch.forward, so a custom merge
module replaces summation by its own reduction. -/
theorem C7_parallel_merge_law :
    (∀ (f g : SubModule) (x : Tensor),
      (Parallel.init (BranchArgs.positional [f, g]) none).forward x =
        PyValue.tensor (tensorAdd (f x) (g x)) ∧
      (tensorAdd (f x) (g x)).data =
        List.zipWith (fun a b => a + b) ((f x).data) ((g x).data) ∧
      (tensorAdd (f x) (g x)).shape = (f x).shape) ∧
    (∀ (p : Parallel) (x : Tensor),
      p.forward x = p.merge (p.branch.forward x)) ∧
    (∀ (args : BranchArgs) (m : MergeModule) (x : Tensor),
      (Parallel.init args (some m)).forward x =
        m ((Branch.init args).forward x)) :=
  ⟨fun _ _ _ => ⟨rfl, rfl, rfl⟩, fun _ _ => rfl, fun _ _ _ => rfl⟩

/-! ## Claims about the quantity store and the protocol -/

/-- C1: a retrieve with consumption after save(k, v) returns v, a second
immediate retrieve returns the absent sentinel, and the protocol fetch step
retrieves the quantity keyed by the module output identity with consumption
enabled: the fetched value is the (flattened) payload stored under the
output storage address, the post-fetch store no longer holds that key, and
after any successful protocol invocation the output key is gone from the
store (when the input key, under which a new quantity may be saved, is a
different address). -/
theorem C1_store_single_consumption :
    (∀ (Q : Type) (st : SavedQuantities Q) (k : Nat) (v : Q),
      (retrieve_quantity (save_quantity st k v) k true).1 = some v) ∧
    (∀ (Q : Type) (st : SavedQuantities Q) (k : Nat) (v : Q) (c : Bool),
      (retrieve_quantity
        ((retrieve_quantity (save_quantity st k v) k true).2) k c).1 =
        none) ∧
    (∀ (Q : Type) (st : SavedQuantities (Option Q)) (module : PyModule),
      (get_backproped_quantity st module.output true).1 =
        (st.lookup module.output.data_ptr).join ∧
      ((get_backproped_quantity st module.output true).2).lookup
        module.output.data_ptr = none) ∧
    (∀ (Q V : Type) (me : ModuleExtensionImpl Q V)
      (extension : BackpropExtension) (module : PyModule)
      (g_inp g_out : List Tensor) (fbh : Bool)
      (store : SavedQuantities (Option Q)) (pstore : ParamStore V)
      (out : CallOut Q V),
      me.call extension module g_inp g_out fbh store pstore =
        Except.ok out →
      module.input0.data_ptr ≠ module.output.data_ptr →
      out.store.lookup module.output.data_ptr = none) := by
  refine ⟨?_, ?_, ?_, ?_⟩
  · intro Q st k v
    simpa [retrieve_quantity] using lookup_save_self st k v
  · intro Q st k v c
    simp only [retrieve_quantity]
    exact lookup_erased _ k
  · intro Q st module
    exact ⟨rfl, get_backproped_consumed st module.output⟩
  · intro Q V me extension module g_inp g_out fbh store pstore out h hne
    simp only [ModuleExtensionImpl.call] at h
    split at h
    · split at h
      · split at h
        · cases h
          exact get_backproped_consumed store module.output
        · cases h
      · cases h
    · split at h
      · cases h
      · split at h
        · cases h
          rw [save_backproped_quantity,
            lookup_save_ne _ _ _ _ hne]
          exact get_backproped_consumed store module.output
        · cases h
          exact get_backproped_consumed store module.output

/-- Witness for C1 at a concrete invocation: the call consumes the entry
stored under the output address 5 and the result store no longer holds that
key. -/
theorem C1_store_single_consumption_witness :
    ((ModuleExtensionImpl.mk [] (fun _ => none)
        (baseBackpropagate Int) : ModuleExtensionImpl Int Int).call
      ⟨false, "sf"⟩
      ⟨false, false, Tensor.mk [1] [0] false 4, Tensor.mk [1] [0] false 5,
        fun _ => none⟩
      [] [] true ⟨[(5, some 3)]⟩ ⟨[]⟩ =
      Except.ok ⟨⟨[]⟩, ⟨[]⟩, []⟩ ∧ (4 : Nat) ≠ 5) ∧
    (CallOut.mk (Q := Int) (V := Int) ⟨[]⟩ ⟨[]⟩ []).store.lookup 5 =
      none :=
  ⟨⟨rfl, by decide⟩,
    C1_store_single_consumption.2.2.2 Int Int
      (ModuleExtensionImpl.mk [] (fun _ => none) (baseBackpropagate Int))
      ⟨false, "sf"⟩
      ⟨false, false, Tensor.mk [1] [0] false 4, Tensor.mk [1] [0] false 5,
        fun _ => none⟩
      [] [] true ⟨[(5, some 3)]⟩ ⟨[]⟩ ⟨⟨[]⟩, ⟨[]⟩, []⟩
      rfl (by decide)⟩

/-- C3: constructing a ModuleExtension with declared parameter names raises
the configuration error at construction time iff some declared name has no
computation function; construction with all functions present, or with no
declared parameters, succeeds; any raised error is the
NotImplementedError configuration error. -/
theorem C3_init_configuration_error (Q V : Type)
    (params : Option (List String))
    (funcs : String → Option (ParamFunc Q V)) (backprop : BackpropFunc Q) :
    ((∃ e, ModuleExtensionImpl.init Q V params funcs backprop =
        Except.error e) ↔ ∃ p ∈ params.getD [], funcs p = none) ∧
    ((∀ p ∈ params.getD [], (funcs p).isSome) →
      ModuleExtensionImpl.init Q V params funcs backprop =
        Except.ok ⟨params.getD [], funcs, backprop⟩) ∧
    (ModuleExtensionImpl.init Q V none funcs backprop =
      Except.ok ⟨[], funcs, backprop⟩) ∧
    (∀ e, ModuleExtensionImpl.init Q V params funcs backprop =
        Except.error e →
      ∃ msg, e = PyError.notImplementedError msg) := by
  cases hf : (params.getD []).find? (fun p => (funcs p).isNone) with
  | none =>
    have hinit : ModuleExtensionImpl.init Q V params funcs backprop =
        Except.ok ⟨params.getD [], funcs, backprop⟩ := by
      simp only [ModuleExtensionImpl.init]
      rw [hf]
    have hall := List.find?_eq_none.mp hf
    refine ⟨?_, fun _ => hinit, rfl, ?_⟩
    · constructor
      · rintro ⟨e, he⟩
        rw [hinit] at he
        cases he
      · rintro ⟨p, hp, hnone⟩
        exact absurd (by simp [hnone]) (hall p hp)
    · intro e he
      rw [hinit] at he
      cases he
  | some p =>
    have hmem : p ∈ params.getD [] := List.mem_of_find?_eq_some hf
    have hp' := List.find?_some hf
    have hnone : funcs p = none :=
      Option.isNone_iff_eq_none.mp (by simpa using hp')
    have hinit : ModuleExtensionImpl.init Q V params funcs backprop =
        Except.error (PyError.notImplementedError
          ("The module extension is missing an implementation " ++ p)) := by
      simp only [ModuleExtensionImpl.init]
      rw [hf]
    refine ⟨?_, ?_, rfl, ?_⟩
    · exact ⟨fun _ => ⟨p, hmem, hnone⟩, fun _ => ⟨_, hinit⟩⟩
    · intro hall
      exact absurd (hall p hmem) (by simp [hnone])
    · intro e he
      rw [hinit] at he
      cases he
      exact ⟨_, rfl⟩

/-- Witness for C3 at a concrete extension declaring one parameter whose
function is present. -/
theorem C3_init_configuration_error_witness :
    (∀ p ∈ (some ["weight"] : Option (List String)).getD [],
      (((fun _ => some (fun _ _ _ _ _ => (0 : Int))) :
        String → Option (ParamFunc Int Int)) p).isSome) ∧
    ModuleExtensionImpl.init Int Int (some ["weight"])
        (fun _ => some (fun _ _ _ _ _ => (0 : Int)))
        (baseBackpropagate Int) =
      Except.ok ⟨(some ["weight"] : Option (List String)).getD [],
        fun _ => some (fun _ _ _ _ _ => (0 : Int)),
        baseBackpropagate Int⟩ :=
  ⟨fun _ _ => rfl,
    (C3_init_configuration_error Int Int (some ["weight"])
      (fun _ => some (fun _ _ _ _ _ => (0 : Int)))
      (baseBackpropagate Int)).2.1 (fun _ _ => rfl)⟩

/-- C2: when the extension expects backpropagation quantities, the fetched
quantity is None and the module is not a loss node, the invocation raises
the graph-integrity AssertionError, except that under the legacy hook a
Flatten module with equal input and output shapes returns early (no error,
no per-parameter computation, no onward propagation), while a Flatten module
under the legacy hook with differing shapes still raises. -/
theorem C2_missing_quantity_error {Q V : Type} (me : ModuleExtensionImpl Q V)
    (extension : BackpropExtension) (module : PyModule)
    (g_inp g_out : List Tensor) (fbh : Bool)
    (store : SavedQuantities (Option Q)) (pstore : ParamStore V)
    (hexp : extension.expects_backpropagation_quantities = true)
    (habs : (get_backproped_quantity store module.output true).1 = none)
    (hloss : module.is_loss = false) :
    (fbh = false → module.is_flatten = true →
      module.input0.shape = module.output.shape →
      me.call extension module g_inp g_out fbh store pstore =
        Except.ok ⟨(get_backproped_quantity store module.output true).2,
          pstore, []⟩) ∧
    (fbh = false → module.is_flatten = true →
      module.input0.shape ≠ module.output.shape →
      me.call extension module g_inp g_out fbh store pstore =
        Except.error (PyError.assertionError
          ("Expected no op Flatten module"))) ∧
    ((fbh = true ∨ module.is_flatten = false) →
      me.call extension module g_inp g_out fbh store pstore =
        Except.error (PyError.assertionError
          ("BackPACK extension expects a backpropagation quantity but it is None"))) := by
  refine ⟨fun h1 h2 h3 => ?_, fun h1 h2 h3 => ?_, fun h => ?_⟩
  · simp only [ModuleExtensionImpl.call]
    simp [hexp, habs, hloss, h1, h2, h3]
  · simp only [ModuleExtensionImpl.call]
    simp [hexp, habs, hloss, h1, h2, h3]
  · simp only [ModuleExtensionImpl.call]
    rcases h with h | h <;> simp [hexp, habs, hloss, h]

/-- Witness for C2 at a concrete no-op Flatten module under the legacy
hook. -/
theorem C2_missing_quantity_error_witness :
    ((⟨true, "sf"⟩ : BackpropExtension).expects_backpropagation_quantities =
        true ∧
      (get_backproped_quantity (⟨[]⟩ : SavedQuantities (Option Int))
        (Tensor.mk [4] [0, 0, 0, 0] false 5) true).1 = none ∧
      (⟨true, false, Tensor.mk [4] [0, 0, 0, 0] true 4,
        Tensor.mk [4] [0, 0, 0, 0] false 5,
        fun _ => none⟩ : PyModule).is_loss = false) ∧
    ((false = false →
      (⟨true, false, Tensor.mk [4] [0, 0, 0, 0] true 4,
        Tensor.mk [4] [0, 0, 0, 0] false 5,
        fun _ => none⟩ : PyModule).is_flatten = true →
      (Tensor.mk [4] [0, 0, 0, 0] true 4).shape =
        (Tensor.mk [4] [0, 0, 0, 0] false 5).shape →
      (ModuleExtensionImpl.mk [] (fun _ => none)
          (baseBackpropagate Int) : ModuleExtensionImpl Int Int).call
        ⟨true, "sf"⟩
        ⟨true, false, Tensor.mk [4] [0, 0, 0, 0] true 4,
          Tensor.mk [4] [0, 0, 0, 0] false 5, fun _ => none⟩
        [] [] false ⟨[]⟩ ⟨[]⟩ =
        Except.ok ⟨(get_backproped_quantity
            (⟨[]⟩ : SavedQuantities (Option Int))
            (Tensor.mk [4] [0, 0, 0, 0] false 5) true).2, ⟨[]⟩, []⟩)) :=
  ⟨⟨rfl, rfl, rfl⟩,
    (C2_missing_quantity_error
      (ModuleExtensionImpl.mk [] (fun _ => none) (baseBackpropagate Int))
      ⟨true, "sf"⟩
      ⟨true, false, Tensor.mk [4] [0, 0, 0, 0] true 4,
        Tensor.mk [4] [0, 0, 0, 0] false 5, fun _ => none⟩
      [] [] false ⟨[]⟩ ⟨[]⟩ rfl rfl rfl).1⟩

/-- C8: in an invocation that does not return early, the onward-propagation
step runs iff the module input requires gradient and the extension expects
backpropagation quantities; when it runs, the value returned by the
backpropagate rule is stored under the module input identity; when either
condition fails, nothing is stored for the input (the store stays the
post-fetch store). -/
theorem C8_backpropagate_onward {Q V : Type} (me : ModuleExtensionImpl Q V)
    (extension : BackpropExtension) (module : PyModule)
    (g_inp g_out : List Tensor) (fbh : Bool)
    (store : SavedQuantities (Option Q)) (pstore pstore1 : ParamStore V)
    (hguard : (extension.expects_backpropagation_quantities &&
        ((get_backproped_quantity store module.output true).1).isNone &&
        !module.is_loss) = false)
    (hrun : run_params me extension module g_inp g_out
        (get_backproped_quantity store module.output true).1 me.params
        pstore = Except.ok pstore1) :
    (should_backpropagate extension module =
      (module.input0.requires_grad &&
        extension.expects_backpropagation_quantities)) ∧
    (should_backpropagate extension module = true →
      me.call extension module g_inp g_out fbh store pstore =
        Except.ok ⟨save_backproped_quantity
            (get_backproped_quantity store module.output true).2
            module.input0
            (me.backpropagate extension module g_inp g_out
              (get_backproped_quantity store module.output true).1).1,
          pstore1,
          (me.backpropagate extension module g_inp g_out
            (get_backproped_quantity store module.output true).1).2⟩) ∧
    (∀ (st : SavedQuantities (Option Q)) (t : Tensor) (q : Option Q),
      (save_backproped_quantity st t q).lookup t.data_ptr = some q) ∧
    (should_backpropagate extension module = false →
      me.call extension module g_inp g_out fbh store pstore =
        Except.ok ⟨(get_backproped_quantity store module.output true).2,
          pstore1, []⟩) := by
  refine ⟨rfl, fun hs => ?_,
    fun st t q => lookup_save_self st t.data_ptr q, fun hs => ?_⟩
  · simp only [ModuleExtensionImpl.call]
    simp [hguard, hrun, hs]
  · simp only [ModuleExtensionImpl.call]
    simp [hguard, hrun, hs]

/-- Witness for C8 at a concrete invocation whose input requires gradient
and whose extension propagates the constant quantity 9. -/
theorem C8_backpropagate_onward_witness :
    (((⟨true, "sf"⟩ : BackpropExtension).expects_backpropagation_quantities &&
        ((get_backproped_quantity (⟨[(5, some 3)]⟩ :
          SavedQuantities (Option Int))
          (Tensor.mk [1] [0] false 5) true).1).isNone &&
        !(⟨false, false, Tensor.mk [1] [0] true 4,
          Tensor.mk [1] [0] false 5, fun _ => none⟩ :
          PyModule).is_loss) = false ∧
      run_params
        (ModuleExtensionImpl.mk [] (fun _ => none)
          (fun _ _ _ _ _ => (some 9, [])) : ModuleExtensionImpl Int Int)
        ⟨true, "sf"⟩
        ⟨false, false, Tensor.mk [1] [0] true 4,
          Tensor.mk [1] [0] false 5, fun _ => none⟩
        [] []
        (get_backproped_quantity (⟨[(5, some 3)]⟩ :
          SavedQuantities (Option Int))
          (Tensor.mk [1] [0] false 5) true).1
        [] ⟨[]⟩ = Except.ok ⟨[]⟩) ∧
    (should_backpropagate ⟨true, "sf"⟩
        ⟨false, false, Tensor.mk [1] [0] true 4,
          Tensor.mk [1] [0] false 5, fun _ => none⟩ = true →
      (ModuleExtensionImpl.mk [] (fun _ => none)
        (fun _ _ _ _ _ => (some 9, [])) : ModuleExtensionImpl Int Int).call
        ⟨true, "sf"⟩
        ⟨false, false, Tensor.mk [1] [0] true 4,
          Tensor.mk [1] [0] false 5, fun _ => none⟩
        [] [] true ⟨[(5, some 3)]⟩ ⟨[]⟩ =
        Except.ok ⟨save_backproped_quantity
            (get_backproped_quantity (⟨[(5, some 3)]⟩ :
              SavedQuantities (Option Int))
              (Tensor.mk [1] [0] false 5) true).2
            (Tensor.mk [1] [0] true 4)
            ((ModuleExtensionImpl.mk [] (fun _ => none)
              (fun _ _ _ _ _ => (some 9, [])) :
              ModuleExtensionImpl Int Int).backpropagate ⟨true, "sf"⟩
              ⟨false, false, Tensor.mk [1] [0] true 4,
                Tensor.mk [1] [0] false 5, fun _ => none⟩ [] []
              (get_backproped_quantity (⟨[(5, some 3)]⟩ :
                SavedQuantities (Option Int))
                (Tensor.mk [1] [0] false 5) true).1).1,
          ⟨[]⟩,
          ((ModuleExtensionImpl.mk [] (fun _ => none)
            (fun _ _ _ _ _ => (some 9, [])) :
            ModuleExtensionImpl Int Int).backpropagate ⟨true, "sf"⟩
            ⟨false, false, Tensor.mk [1] [0] true 4,
              Tensor.mk [1] [0] false 5, fun _ => none⟩ [] []
            (get_backproped_quantity (⟨[(5, some 3)]⟩ :
              SavedQuantities (Option Int))
              (Tensor.mk [1] [0] false 5) true).1).2⟩) :=
  ⟨⟨rfl, rfl⟩,
    (C8_backpropagate_onward
      (ModuleExtensionImpl.mk [] (fun _ => none)
        (fun _ _ _ _ _ => (some 9, [])))
      ⟨true, "sf"⟩
      ⟨false, false, Tensor.mk [1] [0] true 4,
        Tensor.mk [1] [0] false 5, fun _ => none⟩
      [] [] true ⟨[(5, some 3)]⟩ ⟨[]⟩ ⟨[]⟩ rfl rfl).2.1⟩

/-- C9: in an invocation that does not return early, the per-parameter loop
runs over the declared names in order: a parameter that exists and requires
gradient gets the extension function value (computed from the extension
context, module, gradients and fetched quantity) stored under the savefield
on that parameter, overwriting any previous value; a parameter that is not
trainable is skipped and its slot is untouched; the resulting slots are the
parameter store of the successful call. -/
theorem C9_per_parameter_computation {Q V : Type}
    (me : ModuleExtensionImpl Q V) (extension : BackpropExtension)
    (module : PyModule) (g_inp g_out : List Tensor) (fbh : Bool)
    (store : SavedQuantities (Option Q)) (pstore : ParamStore V)
    (hguard : (extension.expects_backpropagation_quantities &&
        ((get_backproped_quantity store module.output true).1).isNone &&
        !module.is_loss) = false)
    (hfuncs : ∀ p ∈ me.params, (me.funcs p).isSome) :
    ∃ pstore1,
      run_params me extension module g_inp g_out
        (get_backproped_quantity store module.output true).1 me.params
        pstore = Except.ok pstore1 ∧
      (∀ out, me.call extension module g_inp g_out fbh store pstore =
        Except.ok out → out.pstore = pstore1) ∧
      (∀ p f, p ∈ me.params → me.funcs p = some f →
        param_exists_and_requires_grad module p = true →
        pstore1.get (p, extension.savefield) =
          some (f extension module g_inp g_out
            (get_backproped_quantity store module.output true).1)) ∧
      (∀ p, param_exists_and_requires_grad module p = false →
        pstore1.get (p, extension.savefield) =
          pstore.get (p, extension.savefield)) := by
  obtain ⟨pstore1, hrun⟩ := run_params_ok me extension module g_inp g_out
    (get_backproped_quantity store module.output true).1 me.params hfuncs
    pstore
  refine ⟨pstore1, hrun, ?_, ?_, ?_⟩
  · intro out hout
    simp only [ModuleExtensionImpl.call] at hout
    simp only [hguard, Bool.false_eq_true, if_false, hrun] at hout
    by_cases hs : should_backpropagate extension module = true
    · simp only [hs, if_true] at hout
      cases hout
      rfl
    · simp only [if_neg hs] at hout
      cases hout
      rfl
  · intro p f hp hf htr
    exact run_params_get_trainable me extension module g_inp g_out _
      me.params pstore pstore1 p f hp hf htr hrun
  · intro p htr
    exact run_params_get_not_trainable me extension module g_inp g_out _
      me.params pstore pstore1 p htr hrun

/-- Witness for C9 at a module with a trainable weight and a frozen bias:
the weight slot receives the computed value 7 and the bias slot stays
empty. -/
theorem C9_per_parameter_computation_witness :
    (((⟨true, "sf"⟩ : BackpropExtension).expects_backpropagation_quantities &&
        ((get_backproped_quantity (⟨[(5, some 3)]⟩ :
          SavedQuantities (Option Int))
          (Tensor.mk [1] [0] false 5) true).1).isNone &&
        !(⟨false, false, Tensor.mk [1] [0] false 4,
          Tensor.mk [1] [0] false 5,
          fun s => if s = "weight" then some ⟨true⟩
            else if s = "bias" then some ⟨false⟩ else none⟩ :
          PyModule).is_loss) = false ∧
      (∀ p ∈ (ModuleExtensionImpl.mk ["weight", "bias"]
          (fun _ => some (fun _ _ _ _ _ => (7 : Int)))
          (baseBackpropagate Int) : ModuleExtensionImpl Int Int).params,
        ((ModuleExtensionImpl.mk ["weight", "bias"]
          (fun _ => some (fun _ _ _ _ _ => (7 : Int)))
          (baseBackpropagate Int) : ModuleExtensionImpl Int Int).funcs
            p).isSome)) ∧
    (∃ pstore1,
      run_params
        (ModuleExtensionImpl.mk ["weight", "bias"]
          (fun _ => some (fun _ _ _ _ _ => (7 : Int)))
          (baseBackpropagate Int) : ModuleExtensionImpl Int Int)
        ⟨true, "sf"⟩
        ⟨false, false, Tensor.mk [1] [0] false 4,
          Tensor.mk [1] [0] false 5,
          fun s => if s = "weight" then some ⟨true⟩
            else if s = "bias" then some ⟨false⟩ else none⟩
        [] []
        (get_backproped_quantity (⟨[(5, some 3)]⟩ :
          SavedQuantities (Option Int))
          (Tensor.mk [1] [0] false 5) true).1
        ["weight", "bias"] ⟨[]⟩ = Except.ok pstore1 ∧
      (∀ out,
        (ModuleExtensionImpl.mk ["weight", "bias"]
          (fun _ => some (fun _ _ _ _ _ => (7 : Int)))
          (baseBackpropagate Int) : ModuleExtensionImpl Int Int).call
          ⟨true, "sf"⟩
          ⟨false, false, Tensor.mk [1] [0] false 4,
            Tensor.mk [1] [0] false 5,
            fun s => if s = "weight" then some ⟨true⟩
              else if s = "bias" then some ⟨false⟩ else none⟩
          [] [] true ⟨[(5, some 3)]⟩ ⟨[]⟩ = Except.ok out →
        out.pstore = pstore1) ∧
      (∀ p f, p ∈ ["weight", "bias"] →
        ((fun _ => some (fun _ _ _ _ _ => (7 : Int))) :
          String → Option (ParamFunc Int Int)) p = some f →
        param_exists_and_requires_grad
          ⟨false, false, Tensor.mk [1] [0] false 4,
            Tensor.mk [1] [0] false 5,
            fun s => if s = "weight" then some ⟨true⟩
              else if s = "bias" then some ⟨false⟩ else none⟩ p = true →
        pstore1.get (p, "sf") =
          some (f ⟨true, "sf"⟩
            ⟨false, false, Tensor.mk [1] [0] false 4,
              Tensor.mk [1] [0] false 5,
              fun s => if s = "weight" then some ⟨true⟩
                else if s = "bias" then some ⟨false⟩ else none⟩ [] []
            (get_backproped_quantity (⟨[(5, some 3)]⟩ :
              SavedQuantities (Option Int))
              (Tensor.mk [1] [0] false 5) true).1)) ∧
      (∀ p, param_exists_and_requires_grad
          ⟨false, false, Tensor.mk [1] [0] false 4,
            Tensor.mk [1] [0] false 5,
            fun s => if s = "weight" then some ⟨true⟩
              else if s = "bias" then some ⟨false⟩ else none⟩ p = false →
        pstore1.get (p, "sf") =
          (⟨[]⟩ : ParamStore Int).get (p, "sf"))) :=
  ⟨⟨rfl, fun _ _ => rfl⟩,
    C9_per_parameter_computation
      (ModuleExtensionImpl.mk ["weight", "bias"]
        (fun _ => some (fun _ _ _ _ _ => (7 : Int)))
        (baseBackpropagate Int))
      ⟨true, "sf"⟩
      ⟨false, false, Tensor.mk [1] [0] false 4,
        Tensor.mk [1] [0] false 5,
        fun s => if s = "weight" then some ⟨true⟩
          else if s = "bias" then some ⟨false⟩ else none⟩
      [] [] true ⟨[(5, some 3)]⟩ ⟨[]⟩ rfl (fun _ _ => rfl)⟩

/-- C10: the base backpropagate, when not overridden, never raises: it
returns None together with a warning; consequently, when the onward
propagation conditions hold for an extension that has not overridden it,
the protocol stores None in the quantity store under the module input
identity. -/
theorem C10_base_backpropagate_stores_none {Q V : Type}
    (me : ModuleExtensionImpl Q V) (extension : BackpropExtension)
    (module : PyModule) (g_inp g_out : List Tensor) (fbh : Bool)
    (store : SavedQuantities (Option Q)) (pstore pstore1 : ParamStore V)
    (hbp : me.backpropagate = baseBackpropagate Q)
    (hguard : (extension.expects_backpropagation_quantities &&
        ((get_backproped_quantity store module.output true).1).isNone &&
        !module.is_loss) = false)
    (hrun : run_params me extension module g_inp g_out
        (get_backproped_quantity store module.output true).1 me.params
        pstore = Except.ok pstore1)
    (hs : should_backpropagate extension module = true) :
    (∀ (extension2 : BackpropExtension) (module2 : PyModule)
        (g_inp2 g_out2 : List Tensor) (bpq : Option Q),
      baseBackpropagate Q extension2 module2 g_inp2 g_out2 bpq =
        (none, ["Backpropagate has not been overwritten"])) ∧
    me.call extension module g_inp g_out fbh store pstore =
      Except.ok ⟨save_backproped_quantity
          (get_backproped_quantity store module.output true).2
          module.input0 none,
        pstore1, ["Backpropagate has not been overwritten"]⟩ ∧
    (save_backproped_quantity
        (get_backproped_quantity store module.output true).2
        module.input0 none).lookup module.input0.data_ptr = some none := by
  refine ⟨fun _ _ _ _ _ => rfl, ?_,
    lookup_save_self _ module.input0.data_ptr none⟩
  simp only [ModuleExtensionImpl.call]
  simp [hguard, hrun, hs, hbp, baseBackpropagate]

/-- Witness for C10 at a concrete invocation of an extension keeping the
base backpropagate. -/
theorem C10_base_backpropagate_stores_none_witness :
    ((ModuleExtensionImpl.mk [] (fun _ => none)
        (baseBackpropagate Int) :
        ModuleExtensionImpl Int Int).backpropagate =
          baseBackpropagate Int ∧
      ((⟨true, "sf"⟩ :
        BackpropExtension).expects_backpropagation_quantities &&
        ((get_backproped_quantity (⟨[(5, some 3)]⟩ :
          SavedQuantities (Option Int))
          (Tensor.mk [1] [0] false 5) true).1).isNone &&
        !(⟨false, false, Tensor.mk [1] [0] true 4,
          Tensor.mk [1] [0] false 5, fun _ => none⟩ :
          PyModule).is_loss) = false ∧
      should_backpropagate ⟨true, "sf"⟩
        ⟨false, false, Tensor.mk [1] [0] true 4,
          Tensor.mk [1] [0] false 5, fun _ => none⟩ = true) ∧
    (ModuleExtensionImpl.mk [] (fun _ => none)
      (baseBackpropagate Int) : ModuleExtensionImpl Int Int).call
      ⟨true, "sf"⟩
      ⟨false, false, Tensor.mk [1] [0] true 4,
        Tensor.mk [1] [0] false 5, fun _ => none⟩
      [] [] true ⟨[(5, some 3)]⟩ ⟨[]⟩ =
      Except.ok ⟨save_backproped_quantity
          (get_backproped_quantity (⟨[(5, some 3)]⟩ :
            SavedQuantities (Option Int))
            (Tensor.mk [1] [0] false 5) true).2
          (Tensor.mk [1] [0] true 4) none,
        ⟨[]⟩, ["Backpropagate has not been overwritten"]⟩ :=
  ⟨⟨rfl, rfl, rfl⟩,
    (C10_base_backpropagate_stores_none
      (ModuleExtensionImpl.mk [] (fun _ => none) (baseBackpropagate Int))
      ⟨true, "sf"⟩
      ⟨false, false, Tensor.mk [1] [0] true 4,
        Tensor.mk [1] [0] false 5, fun _ => none⟩
      [] [] true ⟨[(5, some 3)]⟩ ⟨[]⟩ ⟨[]⟩ rfl rfl rfl rfl).2.1⟩

end Backpack
